import Mathlib

/-!
Shallow embedding of the `visible-affinity-integration` repository
(src/utils.py, src/affinity.py, src/visible.py, src/main.py).

Python strings are modelled as `List Char`; Python dicts keyed by strings
as association lists with unique keys; Python floats as `Rat` (the claims
only pass metric values through, no arithmetic on them is needed —
values are carried unchanged). HTTP I/O is modelled by explicit response
environments passed as functions, and loops whose termination depends on
server responses take a fuel parameter and return `Option` (`none` =
fuel exhausted, i.e. the loop has not terminated within the bound).
-/

/-- Python strings as lists of characters. -/
abbrev Str := List Char

/-- Python str.lower for the ASCII range (domain keys in this repository
are ASCII; Lean's `Char.toLower` maps A-Z to a-z and fixes the rest). -/
def pyLower (s : Str) : Str := s.map Char.toLower

/-- Worker for `removeAll`; the fuel argument (instantiated with the
string's length) only makes the recursion structural, the string shrinks
at least as fast as the fuel. -/
def removeAllGo (pat : Str) : Nat → Str → Str
  | 0, s => s
  | _ + 1, [] => []
  | f + 1, c :: rest =>
    if pat ≠ [] ∧ pat.isPrefixOf (c :: rest)
    then removeAllGo pat f ((c :: rest).drop pat.length)
    else c :: removeAllGo pat f rest

/-- Python str.replace(pat, "") : removes every non-overlapping occurrence
of `pat`, scanning left to right (src/utils.py line 14 uses
`.replace("www.", "")`). -/
def removeAll (pat s : Str) : Str := removeAllGo pat s.length s

/-- Python substring membership `pat in s`. -/
def hasSub (pat : Str) : Str → Bool
  | [] => pat.isEmpty
  | c :: rest => pat.isPrefixOf (c :: rest) || hasSub pat rest

/-- Python whitespace test for str.strip(); the repository only meets
ASCII whitespace, for which Lean's `Char.isWhitespace` agrees. -/
def pyWs (c : Char) : Bool := c.isWhitespace

/-- Python str.strip(): drop whitespace at both ends (src/utils.py line 14). -/
def stripWs (s : Str) : Str :=
  ((s.dropWhile pyWs).reverse.dropWhile pyWs).reverse

/-- Python str.rstrip("/"): drop every trailing slash (src/utils.py line 14). -/
def rstripSlash (s : Str) : Str :=
  (s.reverse.dropWhile (fun c => c = '/')).reverse

/-! urllib.parse model (Python 3.11), restricted to what
`normalize_domain` consumes: `urlparse(url).netloc or urlparse(url).path`.
The `ValueError` paths (mismatched IPv6 brackets, non-NFKC netloc) are not
modelled; no claim reaches them. -/

/-- Characters legal in a URL scheme (urllib.parse.scheme_chars). -/
def isSchemeChar (c : Char) : Bool :=
  (('a' ≤ c && c ≤ 'z') || ('A' ≤ c && c ≤ 'Z') ||
   ('0' ≤ c && c ≤ '9') || c = '+' || c = '-' || c = '.')

/-- urlsplit scheme extraction: at the first ':', if it is preceded by a
nonempty run of scheme characters starting with an ASCII letter, the
scheme (lower-cased) is split off. Returns (scheme if found, rest). -/
def schemeSplit (url : Str) : Option Str × Str :=
  match url.findIdx? (fun c => c = ':') with
  | none => (none, url)
  | some i =>
    if 0 < i && (url.headD ' ').isAlpha && (url.take i).all isSchemeChar
    then (some (pyLower (url.take i)), url.drop (i + 1))
    else (none, url)

/-- A C0 control character or the space character
(urllib.parse._WHATWG_C0_CONTROL_OR_SPACE: code points 0x00-0x20). -/
def whatwgC0OrSpace (c : Char) : Bool := c.toNat ≤ 32

/-- Delimiters ending the netloc component (urllib._splitnetloc). -/
def netlocDelim (c : Char) : Bool := c = '/' || c = '?' || c = '#'

/-- urlsplit netloc extraction: when the remainder starts with "//", the
netloc runs to the first of '/', '?', '#'. Returns (netloc, rest). -/
def splitNetloc (url : Str) : Str × Str :=
  if ['/', '/'].isPrefixOf url then
    let t := url.drop 2
    (t.takeWhile (fun c => !netlocDelim c), t.dropWhile (fun c => !netlocDelim c))
  else ([], url)

/-- Keep the part of `s` before the first occurrence of `c`
(Python s.split(c, 1)[0]; `s` itself when `c` is absent). -/
def takeUntilChar (c : Char) (s : Str) : Str := s.takeWhile (fun d => d ≠ c)

/-- Schemes for which urlparse splits ';'-params off the path
(urllib.parse.uses_params). -/
def usesParams : List Str :=
  [[], "ftp".toList, "hdl".toList, "prospero".toList, "http".toList,
   "imap".toList, "https".toList, "shttp".toList, "rtsp".toList,
   "rtspu".toList, "sip".toList, "sips".toList, "mms".toList,
   "sftp".toList, "tel".toList]

/-- urllib._splitparams, first component: cut at the first ';' after the
last '/' (or the first ';' overall when there is no '/'). -/
def splitParams (url : Str) : Str :=
  if url.contains '/' then
    let j := url.length - 1 - ((url.reverse.findIdx? (fun c => c = '/')).getD 0)
    match (url.drop j).findIdx? (fun c => c = ';') with
    | none => url
    | some k => url.take (j + k)
  else
    match url.findIdx? (fun c => c = ';') with
    | none => url
    | some k => url.take k

/-- `urlparse(raw).netloc or urlparse(raw).path` as used by
src/utils.py lines 9-10: strip leading C0-control/space characters
(the lstrip urlsplit performs first, since CPython 3.11.4), remove
WHATWG-unsafe bytes, split scheme, split netloc, drop fragment then
query, split params off the path for params-using schemes, and return
the netloc when nonempty, else the path. -/
def netlocOrPath (raw : Str) : Str :=
  let url0 := (raw.dropWhile whatwgC0OrSpace).filter
    (fun c => !(c = '\t' || c = '\r' || c = '\n'))
  let sr := schemeSplit url0
  let nr := splitNetloc sr.2
  let url1 := takeUntilChar '?' (takeUntilChar '#' nr.2)
  let scheme := sr.1.getD []
  let path :=
    if usesParams.contains scheme && url1.contains ';'
    then splitParams url1 else url1
  if nr.1 = [] then path else nr.1

/-- src/utils.py `normalize_domain`: empty and "N/A" inputs map to "";
inputs containing "://" go through urlparse taking netloc-or-path, others
are the host themselves; then lower-case, remove every "www." substring,
strip edge whitespace, strip trailing slashes. -/
def normalize_domain (url : Str) : Str :=
  if url.isEmpty || url == "N/A".toList then []
  else
    rstripSlash (stripWs (removeAll "www.".toList (pyLower
      (if hasSub "://".toList url then netlocOrPath url else url))))

example : normalize_domain "https://www.Example.com/".toList = "example.com".toList := by decide
example : normalize_domain "example.com/".toList = "example.com".toList := by decide
example : normalize_domain "N/A".toList = [] := by decide
example : normalize_domain "example.com//".toList = "example.com".toList := by decide
example : normalize_domain "a /".toList = "a ".toList := by decide
example : normalize_domain "a ".toList = "a".toList := by decide

/-! Reconciliation engine (src/main.py lines 129-155). -/

/-- A CRM list entry as the matching loop reads it: `entry["id"]`,
`entry["entity"]["name"]` (default "Unknown" folded into the field) and
`entry["entity"]["domains"]` (default `[]` folded into the field). -/
structure Entry where
  id : Nat
  name : Str
  domains : List Str
deriving DecidableEq

/-- One element of the `matches` list built at src/main.py lines 143-148. -/
structure MatchRec where
  company_name : Str
  list_entry_id : Nat
  domain : Str
  metric_value : Rat
deriving DecidableEq

/-- The Visible metric map `{normalized_domain: value}`; a Python dict in
insertion order with unique keys, modelled as an association list. -/
abbrev MetricMap := List (Str × Rat)

/-- Dict membership plus access, `normalized in visible_data` /
`visible_data[normalized]` (src/main.py lines 141-142). -/
def lookupD (m : MetricMap) (k : Str) : Option Rat :=
  match m with
  | [] => none
  | kv :: rest => if kv.1 = k then some kv.2 else lookupD rest k

/-- The state of the matching loop; `visible_data` is carried in the
state to express what the loop does (and does not do) to it. -/
structure MatchState where
  matches' : List MatchRec
  unmatched_visible : List Str
  unmatched_affinity : List (Str × List Str)
  visible_data : MetricMap
deriving DecidableEq

/-- The inner `for domain in domains` loop (src/main.py lines 139-152):
the first domain whose normalization is a key of `visible_data` yields
that key and its value; the membership test is against the full map. -/
def findDomainMatch (vd : MetricMap) : List Str → Option (Str × Rat)
  | [] => none
  | d :: rest =>
    let nd := normalize_domain d
    match lookupD vd nd with
    | some v => some (nd, v)
    | none => findDomainMatch vd rest

/-- One iteration of the outer `for entry in affinity_entries` loop
(src/main.py lines 133-155): append a match and discard its key from the
`unmatched_visible` set, or record the entry as unmatched when it has at
least one domain. -/
def entryStep (st : MatchState) (e : Entry) : MatchState :=
  match findDomainMatch st.visible_data e.domains with
  | some dv =>
    { st with
      matches' := st.matches' ++ [⟨e.name, e.id, dv.1, dv.2⟩],
      unmatched_visible := st.unmatched_visible.filter (fun k => k ≠ dv.1) }
  | none =>
    if e.domains.isEmpty then st
    else { st with unmatched_affinity := st.unmatched_affinity ++ [(e.name, e.domains)] }

/-- The whole matching phase (src/main.py lines 129-155), starting from
`matches = []`, `unmatched_visible = set(visible_data.keys())`,
`unmatched_affinity = []`. -/
def reconcile (vd : MetricMap) (entries : List Entry) : MatchState :=
  entries.foldl entryStep ⟨[], vd.map Prod.fst, [], vd⟩

/-! CRM adapter (src/affinity.py). -/

/-- Outcome of one HTTP request: a transport-level failure (connection
error, timeout) or a response with a status code and body text. -/
inductive HttpOutcome where
  | transportErr (msg : Str)
  | response (status : Nat) (text : Str)
deriving DecidableEq

/-- requests' `Response.raise_for_status` raises exactly for status codes
in [400, 600). -/
def statusRaises (s : Nat) : Bool := 400 ≤ s && s < 600

/-- src/affinity.py `update_affinity_field` (lines 66-92): issue one PATCH;
a transport error or a raising status is caught by the
`except RequestException` handler and reported as `False`; any other
outcome is `True`. The function is total: it never propagates an error. -/
def update_affinity_field (o : HttpOutcome) : Bool :=
  match o with
  | .transportErr _ => false
  | .response s _ => !statusRaises s

/-- One page served by the link-style CRM pagination: HTTP status, the
`data` items and `pagination.nextUrl`. -/
structure LinkResp where
  status : Nat
  data : List Entry
  nextUrl : Option Str
deriving DecidableEq

/-- src/affinity.py `get_affinity_list_entries` loop body (lines 22-36),
with the server modelled as a map from URL to response and fuel bounding
the number of pages followed (`none` = the loop did not finish within the
fuel). `raise_for_status` runs before the page's data is accumulated, so
a raising status discards the accumulator and surfaces as `Except.error`. -/
def listEntriesGo (env : Str → LinkResp) (base : Str) :
    Nat → Str → List Entry → Option (Except Nat (List Entry))
  | 0, _, _ => none
  | fuel + 1, url, acc =>
    let r := env url
    if statusRaises r.status then some (Except.error r.status)
    else
      let acc2 := acc ++ r.data
      match r.nextUrl with
      | none => some (Except.ok acc2)
      | some nu =>
        listEntriesGo env base fuel
          (if "http".toList.isPrefixOf nu then nu else base ++ nu) acc2

/-- src/affinity.py `get_affinity_list_entries` (lines 16-38): start at
`{base}/v2/lists/{list_id}/list-entries` with an empty accumulator. -/
def get_affinity_list_entries (env : Str → LinkResp) (base listId : Str)
    (fuel : Nat) : Option (Except Nat (List Entry)) :=
  listEntriesGo env base fuel
    (base ++ "/v2/lists/".toList ++ listId ++ "/list-entries".toList) []

/-! Visible adapter (src/visible.py). -/

/-- One page served by the page-counter pagination: `r.ok`, the items of
the page, and `meta.get("total_pages", 1)` (the default is folded into
the field). -/
structure PageResp (α : Type) where
  ok : Bool
  items : List α
  total_pages : Nat
deriving DecidableEq

/-- The page-counter loop shared by src/visible.py collectors
(lines 24-43, 53-72, 87-109, 120-145): starting at `page`, a non-ok page
breaks with nothing from this page on; otherwise the page's items are
accumulated and the loop stops once `page >= total_pages`. Fuel bounds
the number of pages (`none` = did not terminate within the fuel). -/
def collectFrom (resp : Nat → PageResp α) : Nat → Nat → Option (List α)
  | 0, _ => none
  | fuel + 1, page =>
    let r := resp page
    if !r.ok then some []
    else if r.total_pages ≤ page then some r.items
    else (collectFrom resp fuel (page + 1)).map (fun tl => r.items ++ tl)

/-- Page-counter collection starting at page 1. -/
def collectPages (resp : Nat → PageResp α) (fuel : Nat) : Option (List α) :=
  collectFrom resp fuel 1

/-- A Visible portfolio company profile as the collectors return it. -/
structure CompanyProfile where
  id : Nat
  name : Str
deriving DecidableEq

/-- A Visible metric (`{"id": ..., "name": ...}`). -/
structure Metric where
  id : Nat
  name : Str
deriving DecidableEq

/-- src/visible.py `get_visible_portfolio_companies` (lines 19-46):
the page-counter loop over `portfolio_company_profiles` pages. -/
def get_visible_portfolio_companies (resp : Nat → PageResp CompanyProfile)
    (fuel : Nat) : Option (List CompanyProfile) :=
  collectPages resp fuel

/-- src/visible.py `get_visible_company_metrics` (lines 82-111):
the page-counter loop over `metrics` pages filtered by company. -/
def get_visible_company_metrics (resp : Nat → PageResp Metric)
    (fuel : Nat) : Option (List Metric) :=
  collectPages resp fuel

/-- A Python value as data points carry it: JSON null, a string, or a
number. -/
inductive PyVal where
  | pnull
  | pstr (s : Str)
  | pnum (q : Rat)
deriving DecidableEq

/-- One data point `{"date": ..., "value": ...}`. -/
structure DataPoint where
  date : Str
  value : PyVal
deriving DecidableEq

/-- Python string `<` (lexicographic by code point), used for the
`date > latest_date` comparison at src/visible.py line 139. -/
def pyStrLt : Str → Str → Bool
  | [], [] => false
  | [], _ :: _ => true
  | _ :: _, [] => false
  | c :: cs, d :: ds => if c < d then true else if d < c then false else pyStrLt cs ds

/-- Result of `get_latest_data_point`: the value is `pnull` when no point
qualified (the Python locals start as `latest_value = None`,
`latest_date = "0000-00-00"`). -/
structure LatestPoint where
  date : Str
  value : PyVal
deriving DecidableEq

/-- src/visible.py `get_latest_data_point` selection (lines 136-141) over
the data points its page loop iterates (the pagination itself is the
page-counter loop modelled by `collectFrom`; here `points` stands for the
points of the successfully fetched pages, in order): a point participates
only when its value is neither null nor the string "None", its date is
truthy, and its date is strictly greater than the best so far. -/
def get_latest_data_point (points : List DataPoint) : LatestPoint :=
  points.foldl
    (fun acc dp =>
      if (dp.value ≠ PyVal.pnull ∧ dp.value ≠ PyVal.pstr "None".toList)
          ∧ dp.date ≠ [] ∧ pyStrLt acc.date dp.date
      then ⟨dp.date, dp.value⟩ else acc)
    ⟨"0000-00-00".toList, PyVal.pnull⟩

/-- Python `float(·)` as applied at src/visible.py line 231: `None` raises
TypeError (caught), a number converts, and a string converts iff it parses
as a float — the string parser is a parameter, since the claims quantify
over which strings coerce. -/
def pyFloat (coerceStr : Str → Option Rat) : PyVal → Option Rat
  | .pnull => none
  | .pnum q => some q
  | .pstr s => coerceStr s

/-- The per-company data `fetch_visible_metric_data` consumes: the
company's id and name, the result of `get_company_website` (None models
both an absent value and a failed fetch), and the result of
`get_visible_company_metrics`. -/
structure Company where
  id : Nat
  name : Str
  website : Option Str
  metrics : List Metric
deriving DecidableEq

/-- src/visible.py line 221: find the first metric whose stripped,
lower-cased name equals the lower-cased, stripped requested name. -/
def findMetricByName (metricName : Str) (ms : List Metric) : Option Metric :=
  ms.find? (fun m => pyLower (stripWs m.name) == stripWs (pyLower metricName))

/-- Python dict assignment `d[k] = v`: overwrite in place when the key
exists, else append (insertion order is preserved). -/
def dinsert (m : MetricMap) (k : Str) (v : Rat) : MetricMap :=
  if (m.map Prod.fst).contains k
  then m.map (fun kv => if kv.1 = k then (k, v) else kv)
  else m ++ [(k, v)]

/-- One iteration of the `for company in companies` loop of
src/visible.py `fetch_visible_metric_data` (lines 207-237): skip on a
falsy or "N/A" website, on an empty normalized domain, on a missing
metric, on a null/"None" latest value, and on a failed float coercion;
otherwise record `domain -> value`. `pointsOf` maps a metric id to the
data points `get_latest_data_point` iterates for it. -/
def companyStep (pointsOf : Nat → List DataPoint)
    (coerceStr : Str → Option Rat) (metricName : Str)
    (m : MetricMap) (c : Company) : MetricMap :=
  match c.website with
  | none => m
  | some w =>
    if w.isEmpty || w == "N/A".toList then m
    else
      let nd := normalize_domain w
      if nd.isEmpty then m
      else
        match findMetricByName metricName c.metrics with
        | none => m
        | some mt =>
          let latest := get_latest_data_point (pointsOf mt.id)
          if latest.value = PyVal.pnull ∨ latest.value = PyVal.pstr "None".toList
          then m
          else
            match pyFloat coerceStr latest.value with
            | none => m
            | some v => dinsert m nd v

/-- src/visible.py `fetch_visible_metric_data` (lines 190-240): an empty
map when no "Website" property id resolves, else the fold of
`companyStep` over the companies, starting from the empty dict. -/
def fetch_visible_metric_data (hasWebsiteProperty : Bool)
    (pointsOf : Nat → List DataPoint) (coerceStr : Str → Option Rat)
    (metricName : Str) (companies : List Company) : MetricMap :=
  if !hasWebsiteProperty then []
  else companies.foldl (companyStep pointsOf coerceStr metricName) []

/-! Sync orchestrator (src/main.py `sync_runway_data`, lines 96-207). -/

/-- The environment a run reads: the already-fetched Visible metric map,
the CRM list entries the CRM fetch would return, and the outcome of the
i-th update request. -/
structure SyncEnv where
  visibleData : MetricMap
  affinityEntries : List Entry
  updOutcomes : Nat → HttpOutcome

/-- What one run does and reports. `affinityFetched` records whether the
CRM list-entries fetch was issued; `intendedUpdates` is the dry-run
"Would update" listing; `updateCalls` are the update requests issued, in
order. -/
structure SyncReport where
  ranPipeline : Bool
  affinityFetched : Bool
  matches' : List MatchRec
  unmatched_visible : List Str
  unmatched_affinity : List (Str × List Str)
  intendedUpdates : List MatchRec
  updateCalls : List MatchRec
  successCount : Nat
  failedCount : Nat
deriving DecidableEq

/-- The non-dry-run update loop (src/main.py lines 183-199) tallies:
the i-th match's update succeeds iff `update_affinity_field` of the i-th
outcome is true; returns (success_count, failed_count). -/
def runUpdatesGo (outcomes : Nat → HttpOutcome) : Nat → List MatchRec → Nat × Nat
  | _, [] => (0, 0)
  | i, _ :: rest =>
    let pr := runUpdatesGo outcomes (i + 1) rest
    if update_affinity_field (outcomes i) then (pr.1 + 1, pr.2) else (pr.1, pr.2 + 1)

/-- src/main.py `sync_runway_data` (lines 96-207): return early when the
fetched Visible map is falsy (line 110-112); otherwise fetch the CRM
entries, reconcile, and either list the intended updates (dry run,
lines 170-177) or issue one update per match and tally (lines 178-203). -/
def sync_runway_data (dryRun : Bool) (env : SyncEnv) : SyncReport :=
  if env.visibleData.isEmpty then
    { ranPipeline := false, affinityFetched := false, matches' := [],
      unmatched_visible := [], unmatched_affinity := [],
      intendedUpdates := [], updateCalls := [],
      successCount := 0, failedCount := 0 }
  else
    let st := reconcile env.visibleData env.affinityEntries
    if dryRun then
      { ranPipeline := true, affinityFetched := true, matches' := st.matches',
        unmatched_visible := st.unmatched_visible,
        unmatched_affinity := st.unmatched_affinity,
        intendedUpdates := st.matches'.foldl (fun acc mr => acc ++ [mr]) [],
        updateCalls := [], successCount := 0, failedCount := 0 }
    else
      let tallies := runUpdatesGo env.updOutcomes 0 st.matches'
      { ranPipeline := true, affinityFetched := true, matches' := st.matches',
        unmatched_visible := st.unmatched_visible,
        unmatched_affinity := st.unmatched_affinity,
        intendedUpdates := [], updateCalls := st.matches',
        successCount := tallies.1, failedCount := tallies.2 }

/-! Helper lemmas. -/

lemma entryStep_visible_data (st : MatchState) (e : Entry) :
    (entryStep st e).visible_data = st.visible_data := by
  unfold entryStep
  cases h : findDomainMatch st.visible_data e.domains
  · dsimp only
    split <;> rfl
  · rfl

lemma foldl_entryStep_visible_data (entries : List Entry) :
    ∀ st : MatchState, (entries.foldl entryStep st).visible_data = st.visible_data := by
  induction entries with
  | nil => intro st; rfl
  | cons e rest ih =>
    intro st
    rw [List.foldl_cons, ih, entryStep_visible_data]

lemma entryStep_matches_le (st : MatchState) (e : Entry) :
    (entryStep st e).matches'.length ≤ st.matches'.length + 1 := by
  unfold entryStep
  cases h : findDomainMatch st.visible_data e.domains
  · dsimp only
    split <;> simp
  · simp

lemma foldl_entryStep_matches_le (entries : List Entry) :
    ∀ st : MatchState,
      (entries.foldl entryStep st).matches'.length ≤ st.matches'.length + entries.length := by
  induction entries with
  | nil => intro st; simp
  | cons e rest ih =>
    intro st
    rw [List.foldl_cons]
    calc (rest.foldl entryStep (entryStep st e)).matches'.length
        ≤ (entryStep st e).matches'.length + rest.length := ih _
      _ ≤ st.matches'.length + 1 + rest.length :=
          Nat.add_le_add_right (entryStep_matches_le st e) _
      _ = st.matches'.length + (e :: rest).length := by simp; omega

lemma foldl_push_eq_append {α : Type} (l : List α) :
    ∀ acc : List α, l.foldl (fun a x => a ++ [x]) acc = acc ++ l := by
  induction l with
  | nil => intro acc; simp
  | cons x rest ih => intro acc; simp [ih]

lemma runUpdatesGo_sum (outcomes : Nat → HttpOutcome) :
    ∀ (ms : List MatchRec) (i : Nat),
      (runUpdatesGo outcomes i ms).1 + (runUpdatesGo outcomes i ms).2 = ms.length := by
  intro ms
  induction ms with
  | nil => intro i; rfl
  | cons m rest ih =>
    intro i
    unfold runUpdatesGo
    have h := ih (i + 1)
    split <;> simp <;> omega

lemma runUpdatesGo_failed (outcomes : Nat → HttpOutcome) :
    ∀ (ms : List MatchRec) (i : Nat),
      (runUpdatesGo outcomes i ms).2 =
        (List.range ms.length).countP
          (fun j => !update_affinity_field (outcomes (i + j))) := by
  intro ms
  induction ms with
  | nil => intro i; rfl
  | cons m rest ih =>
    intro i
    unfold runUpdatesGo
    rw [List.length_cons, List.range_succ_eq_map, List.countP_cons, List.countP_map]
    have hc : ((fun j => !update_affinity_field (outcomes (i + j))) ∘ Nat.succ)
        = fun j => !update_affinity_field (outcomes (i + 1 + j)) := by
      funext j
      simp only [Function.comp]
      have : i + Nat.succ j = i + 1 + j := by omega
      rw [this]
    rw [hc, ← ih (i + 1)]
    dsimp only
    cases hok : update_affinity_field (outcomes i) <;> simp [hok]

/-! Concrete reconciliation scenario named by claim C1 (spec §8 test 4):
sourceMap {a:1, b:2}, records [{domains:["a"]}, {domains:["a","b"]},
{domains:["c"]}] in that order. -/

/-- The source map {a:1, b:2}. -/
def exVisibleMap : MetricMap := [("a".toList, 1), ("b".toList, 2)]

/-- The three CRM records of the scenario, in order. -/
def exEntries : List Entry :=
  [⟨1, "r1".toList, ["a".toList]⟩,
   ⟨2, "r2".toList, ["a".toList, "b".toList]⟩,
   ⟨3, "r3".toList, ["c".toList]⟩]

/-- C1, counterexample: on the claim's own concrete input the join is not
one-to-one on the source side — the set of unmatched source keys is not
empty (it is {b}), and the matched domains are not ["a", "b"] (the second
record matches "a" again, because src/main.py line 141 tests membership in
`visible_data` itself, which is never shrunk, rather than in the
still-unclaimed key set). -/
theorem reconcile_one_to_one_cex :
    (reconcile exVisibleMap exEntries).unmatched_visible.length ≠ 0 ∧
    (reconcile exVisibleMap exEntries).matches'.map MatchRec.domain
      ≠ ["a".toList, "b".toList] := by decide

/-- C1, amended: the join is one-to-one on the CRM-record side only —
each record yields at most one match (so there are never more matches
than records) — while a source key can back several matches; on the
claim's concrete input the result is two matches, both on source key "a"
with value 1, one unmatched source key "b", and one unmatched CRM
record. -/
theorem reconcile_source_side_amended :
    (∀ (vd : MetricMap) (entries : List Entry),
        (reconcile vd entries).matches'.length ≤ entries.length) ∧
    (reconcile exVisibleMap exEntries).matches' =
      [⟨"r1".toList, 1, "a".toList, 1⟩, ⟨"r2".toList, 2, "a".toList, 1⟩] ∧
    (reconcile exVisibleMap exEntries).unmatched_visible = ["b".toList] ∧
    (reconcile exVisibleMap exEntries).unmatched_affinity
      = [("r3".toList, ["c".toList])] := by
  refine ⟨fun vd entries => ?_, by decide, by decide, by decide⟩
  have h := foldl_entryStep_matches_le entries ⟨[], vd.map Prod.fst, [], vd⟩
  simpa [reconcile] using h

/-- C9: the matching phase never mutates the source metric map — the map
carried through the loop state is, at the end, the map it started with
(matched keys are only discarded from the separate `unmatched_visible`
set). -/
theorem reconcile_preserves_source_map (vd : MetricMap) (entries : List Entry) :
    (reconcile vd entries).visible_data = vd :=
  foldl_entryStep_visible_data entries _

/-- C6: with dryRun true the orchestrator issues no update call, and the
reported intended-update list (the dry-run print loop over `matches`)
equals the match list exactly. -/
theorem dry_run_never_updates (env : SyncEnv) :
    (sync_runway_data true env).updateCalls = [] ∧
    (sync_runway_data true env).intendedUpdates
      = (sync_runway_data true env).matches' := by
  unfold sync_runway_data
  split
  · exact ⟨rfl, rfl⟩
  · refine ⟨rfl, ?_⟩
    dsimp only
    rw [foldl_push_eq_append]
    simp

/-- C10: when the fetched source metric map is empty, the run returns at
src/main.py line 112 — the CRM fetch is not issued, no matches are
computed, no updates are issued or intended, and both tallies are zero,
for either value of dryRun. -/
theorem empty_source_early_return (dryRun : Bool) (env : SyncEnv)
    (h : env.visibleData = []) :
    (sync_runway_data dryRun env).ranPipeline = false ∧
    (sync_runway_data dryRun env).affinityFetched = false ∧
    (sync_runway_data dryRun env).matches' = [] ∧
    (sync_runway_data dryRun env).intendedUpdates = [] ∧
    (sync_runway_data dryRun env).updateCalls = [] ∧
    (sync_runway_data dryRun env).successCount = 0 ∧
    (sync_runway_data dryRun env).failedCount = 0 := by
  unfold sync_runway_data
  rw [h]
  simp

/-- A run environment whose Visible fetch produced an empty map. -/
def envEmpty : SyncEnv :=
  ⟨[], [], fun _ => HttpOutcome.response 200 []⟩

/-- C10, witness: the early-return theorem applied at a concrete empty
environment in non-dry-run mode. -/
theorem empty_source_early_return_witness :
    envEmpty.visibleData = [] ∧
    (sync_runway_data false envEmpty).ranPipeline = false ∧
    (sync_runway_data false envEmpty).updateCalls = [] :=
  ⟨rfl, (empty_source_early_return false envEmpty rfl).1,
    (empty_source_early_return false envEmpty rfl).2.2.2.2.1⟩

/-- C7: in non-dry-run mode exactly one update request is issued per
match, in order (`updateCalls = matches`); every attempt is a total
boolean (`update_affinity_field` converts transport errors and raising
statuses to False); and the tallies satisfy succeeded + failed = N with
failed equal to the number of matches whose call fails. -/
theorem update_tally_spec (env : SyncEnv) :
    (sync_runway_data false env).updateCalls
      = (sync_runway_data false env).matches' ∧
    (sync_runway_data false env).successCount
        + (sync_runway_data false env).failedCount
      = (sync_runway_data false env).matches'.length ∧
    (sync_runway_data false env).failedCount =
      (List.range (sync_runway_data false env).matches'.length).countP
        (fun i => !update_affinity_field (env.updOutcomes i)) := by
  unfold sync_runway_data
  split
  · simp
  · refine ⟨rfl, ?_, ?_⟩
    · exact runUpdatesGo_sum env.updOutcomes _ 0
    · have h := runUpdatesGo_failed env.updOutcomes
        (reconcile env.visibleData env.affinityEntries).matches' 0
      simpa using h

/-- Concatenation of the items of pages s, s+1, ..., s+n-1, in page
order. -/
def pagesJoin (resp : Nat → PageResp α) (s n : Nat) : List α :=
  ((List.range' s n).map (fun p => (resp p).items)).flatten

lemma pagesJoin_zero (resp : Nat → PageResp α) (s : Nat) :
    pagesJoin resp s 0 = [] := rfl

lemma pagesJoin_succ (resp : Nat → PageResp α) (s n : Nat) :
    pagesJoin resp s (n + 1) = (resp s).items ++ pagesJoin resp (s + 1) n := by
  unfold pagesJoin
  rw [List.range'_succ]
  simp

lemma pagesJoin_one (resp : Nat → PageResp α) (s : Nat) :
    pagesJoin resp s 1 = (resp s).items := by
  rw [pagesJoin_succ, pagesJoin_zero, List.append_nil]

/-- On a server that answers pages 1..P consistently (all ok, all
reporting P total pages), the page-counter loop finishes once the fuel
covers the remaining pages and returns the pages from `page` up. -/
lemma collectFrom_complete (resp : Nat → PageResp α) (P : Nat)
    (hP : ∀ p, 1 ≤ p → p ≤ P → (resp p).ok = true ∧ (resp p).total_pages = P) :
    ∀ (fuel page : Nat), 1 ≤ page → page ≤ P → P - page < fuel →
      collectFrom resp fuel page = some (pagesJoin resp page (P - page + 1)) := by
  intro fuel
  induction fuel with
  | zero => intro page _ _ h3; omega
  | succ f ih =>
    intro page h1 h2 h3
    obtain ⟨hok, htot⟩ := hP page h1 h2
    rcases eq_or_lt_of_le h2 with heq | hlt
    · subst heq
      simp only [collectFrom, hok, htot, Bool.not_true, Bool.false_eq_true,
        if_false, le_refl, if_true]
      rw [Nat.sub_self, pagesJoin_one]
    · have hnot : ¬ (resp page).total_pages ≤ page := by omega
      simp only [collectFrom, hok, Bool.not_true, Bool.false_eq_true,
        if_false, hnot, if_true]
      rw [ih (page + 1) (by omega) (by omega) (by omega)]
      rw [show P - page + 1 = (P - (page + 1) + 1) + 1 by omega, pagesJoin_succ]
      rfl

/-- When page k answers non-ok and every earlier page from `page` on is
ok and keeps the loop going, the page-counter loop returns exactly the
pages `page`..k-1. -/
lemma collectFrom_partial (resp : Nat → PageResp α) (k : Nat)
    (hk : (resp k).ok = false) :
    ∀ (fuel page : Nat), page ≤ k →
      (∀ p, page ≤ p → p < k → (resp p).ok = true ∧ p < (resp p).total_pages) →
      k - page < fuel →
      collectFrom resp fuel page = some (pagesJoin resp page (k - page)) := by
  intro fuel
  induction fuel with
  | zero => intro page _ _ h3; omega
  | succ f ih =>
    intro page hpk hgood h3
    rcases eq_or_lt_of_le hpk with heq | hlt
    · subst heq
      simp only [collectFrom, hk, Bool.not_false, if_true]
      rw [Nat.sub_self, pagesJoin_zero]
    · obtain ⟨hok, htot⟩ := hgood page le_rfl hlt
      have hnot : ¬ (resp page).total_pages ≤ page := by omega
      simp only [collectFrom, hok, Bool.not_true, Bool.false_eq_true,
        if_false, hnot, if_true]
      rw [ih (page + 1) (by omega)
        (fun p hp1 hp2 => hgood p (by omega) hp2) (by omega)]
      rw [show k - page = (k - (page + 1)) + 1 by omega, pagesJoin_succ]
      rfl

/-- C5: the page-counter collections terminate and concatenate. For a
server answering pages 1..P consistently, `get_visible_portfolio_companies`
with fuel ≥ P returns the concatenation of pages 1..P in page order; and
when a later page k answers a non-success status while pages 1..k-1 are ok
and keep the loop going, `get_visible_company_metrics` returns exactly the
items of pages 1..k-1. -/
theorem page_counter_collection_spec
    (resp : Nat → PageResp CompanyProfile) (mresp : Nat → PageResp Metric)
    (P k fuel mfuel : Nat)
    (hP1 : 1 ≤ P)
    (hPok : ∀ p, 1 ≤ p → p ≤ P → (resp p).ok = true ∧ (resp p).total_pages = P)
    (hfuel : P ≤ fuel)
    (hk1 : 1 ≤ k)
    (hkbad : (mresp k).ok = false)
    (hkgood : ∀ p, 1 ≤ p → p < k → (mresp p).ok = true ∧ p < (mresp p).total_pages)
    (hmfuel : k ≤ mfuel) :
    get_visible_portfolio_companies resp fuel = some (pagesJoin resp 1 P) ∧
    get_visible_company_metrics mresp mfuel = some (pagesJoin mresp 1 (k - 1)) := by
  constructor
  · unfold get_visible_portfolio_companies collectPages
    rw [collectFrom_complete resp P hPok fuel 1 le_rfl hP1 (by omega)]
    rw [show P - 1 + 1 = P by omega]
  · unfold get_visible_company_metrics collectPages
    exact collectFrom_partial mresp k hkbad mfuel 1 hk1
      (fun p hp1 hp2 => hkgood p hp1 hp2) (by omega)

/-- Consistent two-page server for the C5 witness. -/
def wResp : Nat → PageResp CompanyProfile :=
  fun p => ⟨true, [⟨p, ['c']⟩], 2⟩

/-- Server whose page 2 fails, for the C5 witness. -/
def wMresp : Nat → PageResp Metric :=
  fun p => if p = 2 then ⟨false, [], 5⟩ else ⟨true, [⟨p, ['m']⟩], 5⟩

/-- C5, witness: the collection theorem applied at a concrete two-page
server (complete run) and a concrete server failing at page 2 (run
keeping only page 1). -/
theorem page_counter_collection_spec_witness :
    get_visible_portfolio_companies wResp 2 = some [⟨1, ['c']⟩, ⟨2, ['c']⟩] ∧
    get_visible_company_metrics wMresp 2 = some [⟨1, ['m']⟩] := by
  have h := page_counter_collection_spec wResp wMresp 2 2 2 2 (by omega)
    (fun p h1 h2 => ⟨rfl, rfl⟩) (by omega) (by omega) rfl
    (fun p h1 h2 => by
      have hp : p = 1 := by omega
      subst hp
      exact ⟨rfl, by decide⟩)
    (by omega)
  obtain ⟨h1, h2⟩ := h
  rw [h1, h2]
  exact ⟨rfl, rfl⟩

deriving instance DecidableEq for Except

/-- Base URL for the C3 counterexample. -/
def cexBase : Str := "b".toList

/-- Link-style server for the C3 counterexample: the first list-entries
page succeeds with one entry and points to /p2; /p2 answers 500. -/
def cexEnv : Str → LinkResp := fun u =>
  if u = "b/v2/lists/7/list-entries".toList
  then ⟨200, [⟨1, "e1".toList, []⟩], some "/p2".toList⟩
  else if u = "b/p2".toList
  then ⟨500, [⟨2, "e2".toList, []⟩], none⟩
  else ⟨404, [], none⟩

/-- C3, counterexample: on a 500 at the second page,
`get_affinity_list_entries` does not return the items accumulated from
the first page — `raise_for_status` (src/affinity.py line 25) raises, so
the call surfaces an exception and the accumulated entry is lost. -/
theorem entries_fetch_raises_cex :
    get_affinity_list_entries cexEnv cexBase "7".toList 5
      = some (Except.error 500) ∧
    get_affinity_list_entries cexEnv cexBase "7".toList 5
      ≠ some (Except.ok [⟨1, "e1".toList, []⟩]) := by decide

/-- One-page-then-fail server for the C3 amended witness. -/
def cexResp : Nat → PageResp CompanyProfile :=
  fun p => if p = 3 then ⟨false, [], 9⟩ else ⟨true, [⟨p, ['v']⟩], 9⟩

/-- C3, amended: the partial-results-without-raising failure policy holds
for the page-counter collections (src/visible.py) — a non-ok page k
yields exactly the items of pages 1..k-1 — but not for the link-style
`get_affinity_list_entries` (src/affinity.py), which instead raises on
any status in [400, 600) at any page, discarding what was accumulated. -/
theorem collection_failure_policy_amended
    (env : Str → LinkResp) (base url : Str) (acc : List Entry) (fuel : Nat)
    (hbad : statusRaises (env url).status = true)
    (resp : Nat → PageResp CompanyProfile) (k mfuel : Nat)
    (hk1 : 1 ≤ k)
    (hkbad : (resp k).ok = false)
    (hkgood : ∀ p, 1 ≤ p → p < k → (resp p).ok = true ∧ p < (resp p).total_pages)
    (hmfuel : k ≤ mfuel) :
    listEntriesGo env base (fuel + 1) url acc = some (Except.error (env url).status) ∧
    get_visible_portfolio_companies resp mfuel = some (pagesJoin resp 1 (k - 1)) := by
  constructor
  · simp only [listEntriesGo, hbad, if_true]
  · unfold get_visible_portfolio_companies collectPages
    exact collectFrom_partial resp k hkbad mfuel 1 hk1
      (fun p hp1 hp2 => hkgood p hp1 hp2) (by omega)

/-- C3, amended, witness: the amended failure policy applied at the
concrete failing link-style server (page 2 answers 500, the page-1 entry
is discarded and the error surfaces) and a concrete page-counter server
failing at page 3 (pages 1 and 2 are kept). -/
theorem collection_failure_policy_amended_witness :
    listEntriesGo cexEnv cexBase 4 ("b/p2".toList) [⟨1, "e1".toList, []⟩]
      = some (Except.error 500) ∧
    get_visible_portfolio_companies cexResp 3 = some [⟨1, ['v']⟩, ⟨2, ['v']⟩] := by
  have h := collection_failure_policy_amended cexEnv cexBase ("b/p2".toList)
    [⟨1, "e1".toList, []⟩] 3 (by decide) cexResp 3 3 (by omega) rfl
    (fun p h1 h2 => by
      interval_cases p
      · exact ⟨rfl, by decide⟩
      · exact ⟨rfl, by decide⟩)
    (by omega)
  obtain ⟨h1, h2⟩ := h
  constructor
  · exact h1.trans (by decide)
  · rw [h2]; rfl


/-- A company whose selected latest value is null, the string "None", or
fails float coercion is a no-op for the map fold of
`fetch_visible_metric_data` (whatever the accumulated map is). -/
lemma companyStep_skip_bad
    (pointsOf : Nat → List DataPoint)
    (coerceStr : Str → Option Rat) (metricName : Str) (c : Company)
    (h : ∀ mt, findMetricByName metricName c.metrics = some mt →
      ((get_latest_data_point (pointsOf mt.id)).value = PyVal.pnull ∨
       (get_latest_data_point (pointsOf mt.id)).value = PyVal.pstr "None".toList ∨
       pyFloat coerceStr (get_latest_data_point (pointsOf mt.id)).value = none))
    (m : MetricMap) :
    companyStep pointsOf coerceStr metricName m c = m := by
  unfold companyStep
  rcases hw : c.website with _ | w
  · rfl
  · rcases hmt : findMetricByName metricName c.metrics with _ | mt
    · simp
    · rcases h mt hmt with hb | hb | hb <;> simp [hb]

/-- C8: `fetch_visible_metric_data` excludes a company whose selected
latest data point's value is null or the literal string "None", or whose
value fails float coercion: removing such a company from the input list
does not change the resulting map, and the companies after it are still
processed (the function is total — nothing is thrown and the run is not
aborted for one bad value). -/
theorem fetch_metric_excludes_bad
    (hasW : Bool) (pointsOf : Nat → List DataPoint)
    (coerceStr : Str → Option Rat) (metricName : Str)
    (xs ys : List Company) (c : Company)
    (h : ∀ mt, findMetricByName metricName c.metrics = some mt →
      ((get_latest_data_point (pointsOf mt.id)).value = PyVal.pnull ∨
       (get_latest_data_point (pointsOf mt.id)).value = PyVal.pstr "None".toList ∨
       pyFloat coerceStr (get_latest_data_point (pointsOf mt.id)).value = none)) :
    fetch_visible_metric_data hasW pointsOf coerceStr metricName (xs ++ c :: ys)
      = fetch_visible_metric_data hasW pointsOf coerceStr metricName (xs ++ ys) := by
  unfold fetch_visible_metric_data
  cases hasW with
  | false => rfl
  | true =>
    rw [List.foldl_append, List.foldl_append, List.foldl_cons,
      companyStep_skip_bad pointsOf coerceStr metricName c h]

/-- Company for the C8 witness whose latest value "x" fails coercion. -/
def wCompanyBad : Company :=
  ⟨1, "c1".toList, some "bad.com".toList, [⟨7, "runway".toList⟩]⟩

/-- Company for the C8 witness with a good numeric latest value. -/
def wCompanyGood : Company :=
  ⟨2, "c2".toList, some "good.com".toList, [⟨8, "runway".toList⟩]⟩

/-- Data points for the C8 witness: metric 7 only has the unparsable
string "x"; other metrics have the number 3. -/
def wPoints : Nat → List DataPoint := fun i =>
  if i = 7 then [⟨"2024-01-01".toList, PyVal.pstr "x".toList⟩]
  else [⟨"2024-01-01".toList, PyVal.pnum 3⟩]

/-- String-to-float coercion for the C8 witness: nothing parses. -/
def wCoerce : Str → Option Rat := fun _ => none

/-- C8, witness: the exclusion theorem applied at a concrete company
whose selected value fails coercion, placed before a healthy company. -/
theorem fetch_metric_excludes_bad_witness :
    fetch_visible_metric_data true wPoints wCoerce "runway".toList
        ([] ++ wCompanyBad :: [wCompanyGood])
      = fetch_visible_metric_data true wPoints wCoerce "runway".toList
        ([] ++ [wCompanyGood]) :=
  fetch_metric_excludes_bad true wPoints wCoerce "runway".toList [] [wCompanyGood]
    wCompanyBad
    (fun mt hmt => by
      have h0 : findMetricByName "runway".toList wCompanyBad.metrics
          = some ⟨7, "runway".toList⟩ := by decide
      rw [h0] at hmt
      injection hmt with hmt2
      subst hmt2
      right; right; decide)

/-- The spec's normalization step list for a host string, with the
slash rule amended: lower-case, remove the literal "www." substring
occurrences, strip leading/trailing whitespace, then strip ALL trailing
slashes (the spec said one). -/
def normalizeHostSpec (x : Str) : Str :=
  rstripSlash (stripWs (removeAll "www.".toList (pyLower x)))

/-- C4, counterexample: an input ending in two slashes does not keep one
trailing slash — Python's rstrip("/") removes every trailing slash, so
normalize("example.com//") is "example.com", not "example.com/". -/
theorem normalize_trailing_slash_cex :
    normalize_domain "example.com//".toList = "example.com".toList ∧
    normalize_domain "example.com//".toList ≠ "example.com/".toList := by decide

/-- C4, amended: on a non-empty, non-sentinel host string (no "://"),
`normalize_domain` applies exactly the spec's steps in order — lower-case,
remove "www." substrings, strip edge whitespace — ending with a strip of
ALL trailing slashes rather than one; consequently "example.com//" maps
to "example.com". -/
theorem normalize_steps_amended (x : Str) (h1 : x ≠ []) (h2 : x ≠ "N/A".toList)
    (h3 : hasSub "://".toList x = false) :
    normalize_domain x = normalizeHostSpec x := by
  unfold normalize_domain
  have he : x.isEmpty = false := by
    cases x
    · exact absurd rfl h1
    · rfl
  have hne : (x == "N/A".toList) = false := beq_eq_false_iff_ne.mpr h2
  rw [he, hne, h3]
  simp [normalizeHostSpec]

/-- C4, witness: the amended step theorem applied at a concrete host
string exercising every step (upper case, an inner "www.", edge blanks,
two trailing slashes). -/
theorem normalize_steps_amended_witness :
    normalize_domain " WWW.Foo.com// ".toList
      = normalizeHostSpec " WWW.Foo.com// ".toList :=
  normalize_steps_amended (" WWW.Foo.com// ".toList) (by decide) (by decide)
    (by decide)

lemma dropWhile_idem (p : Char → Bool) (l : Str) :
    (l.dropWhile p).dropWhile p = l.dropWhile p := by
  induction l with
  | nil => rfl
  | cons a t ih =>
    by_cases h : p a
    · simp [List.dropWhile_cons, h, ih]
    · simp [List.dropWhile_cons, h]

lemma rstripSlash_idem (s : Str) : rstripSlash (rstripSlash s) = rstripSlash s := by
  unfold rstripSlash
  rw [List.reverse_reverse, dropWhile_idem]

lemma head?_dropWhile (p : Char → Bool) (l : Str) :
    ∀ c, (l.dropWhile p).head? = some c → p c = false := by
  induction l with
  | nil => intro c h; simp at h
  | cons a t ih =>
    intro c h
    by_cases hpa : p a
    · rw [List.dropWhile_cons, if_pos hpa] at h
      exact ih c h
    · rw [List.dropWhile_cons, if_neg hpa] at h
      have hac : a = c := by simpa using h
      subst hac
      revert hpa
      cases p a <;> simp

lemma dropWhile_eq_self_of_head (p : Char → Bool) (l : Str)
    (h : ∀ c, l.head? = some c → p c = false) :
    l.dropWhile p = l := by
  cases l with
  | nil => rfl
  | cons a t =>
    rw [List.dropWhile_cons, if_neg]
    simp [h a rfl]

lemma mem_removeAllGo (pat : Str) :
    ∀ (f : Nat) (s : Str) (c : Char), c ∈ removeAllGo pat f s → c ∈ s := by
  intro f
  induction f with
  | zero => intro s c h; exact h
  | succ n ih =>
    intro s c h
    cases s with
    | nil => exact h
    | cons a t =>
      unfold removeAllGo at h
      split at h
      · exact List.drop_subset _ _ (ih _ c h)
      · rcases List.mem_cons.mp h with rfl | h2
        · exact List.mem_cons_self _ _
        · exact List.mem_cons_of_mem _ (ih _ c h2)

lemma mem_removeAll (pat s : Str) (c : Char) (h : c ∈ removeAll pat s) : c ∈ s :=
  mem_removeAllGo pat s.length s c h

lemma rstripSlash_subset (s : Str) : ∀ c, c ∈ rstripSlash s → c ∈ s := by
  intro c h
  unfold rstripSlash at h
  rw [List.mem_reverse] at h
  have h2 := (List.dropWhile_sublist _).subset h
  exact List.mem_reverse.mp h2

lemma stripWs_subset (s : Str) : ∀ c, c ∈ stripWs s → c ∈ s := by
  intro c h
  unfold stripWs at h
  rw [List.mem_reverse] at h
  have h2 := (List.dropWhile_sublist pyWs).subset h
  rw [List.mem_reverse] at h2
  exact (List.dropWhile_sublist pyWs).subset h2

lemma charToNat_ofNat_valid {n : Nat} (h : n.isValidChar) :
    (Char.ofNat n).toNat = n := by
  unfold Char.ofNat
  rw [dif_pos h]
  rfl

lemma toLower_toLower (c : Char) : c.toLower.toLower = c.toLower := by
  unfold Char.toLower
  by_cases h : c.toNat ≥ 65 ∧ c.toNat ≤ 90
  · rw [if_pos h]
    have hv : Nat.isValidChar (c.toNat + 32) := Or.inl (by omega)
    have ht : (Char.ofNat (c.toNat + 32)).toNat = c.toNat + 32 :=
      charToNat_ofNat_valid hv
    have hcond : ¬((Char.ofNat (c.toNat + 32)).toNat ≥ 65 ∧
        (Char.ofNat (c.toNat + 32)).toNat ≤ 90) := by
      rw [ht]
      omega
    rw [if_neg hcond]
  · rw [if_neg h, if_neg h]

lemma pyLower_chars (s : Str) : ∀ c ∈ pyLower s, c.toLower = c := by
  intro c hc
  unfold pyLower at hc
  rw [List.mem_map] at hc
  obtain ⟨a, _, rfl⟩ := hc
  exact toLower_toLower a

lemma pyLower_eq_self (s : Str) (h : ∀ c ∈ s, c.toLower = c) : pyLower s = s := by
  unfold pyLower
  rw [List.map_congr_left h, List.map_id']

lemma normalize_chars_lower (x : Str) :
    ∀ c ∈ normalize_domain x, c.toLower = c := by
  intro c hc
  unfold normalize_domain at hc
  split at hc
  · simp at hc
  · exact pyLower_chars _ _
      (mem_removeAll _ _ _ (stripWs_subset _ _ (rstripSlash_subset _ _ hc)))

lemma normalize_rstrip_fixed (x : Str) :
    rstripSlash (normalize_domain x) = normalize_domain x := by
  unfold normalize_domain
  split
  · rfl
  · exact rstripSlash_idem _

lemma removeAllGo_no_occurrence (pat : Str) :
    ∀ (f : Nat) (s : Str), hasSub pat s = false → removeAllGo pat f s = s := by
  intro f
  induction f with
  | zero => intro s _; rfl
  | succ n ih =>
    intro s hs
    cases s with
    | nil => rfl
    | cons a t =>
      unfold hasSub at hs
      rw [Bool.or_eq_false_iff] at hs
      unfold removeAllGo
      rw [if_neg]
      · rw [ih t hs.2]
      · rintro ⟨_, hpre⟩
        rw [hs.1] at hpre
        exact Bool.false_ne_true hpre

lemma removeAll_no_occurrence (pat s : Str)
    (h : hasSub pat s = false) : removeAll pat s = s :=
  removeAllGo_no_occurrence pat s.length s h

lemma revDropRev_leading (p : Char → Bool) (s : Str) :
    (s.reverse.dropWhile p).reverse <+: s := by
  have hsuf : s.reverse.dropWhile p <:+ s.reverse :=
    ⟨s.reverse.takeWhile p, List.takeWhile_append_dropWhile p s.reverse⟩
  have hpre := List.reverse_prefix.mpr hsuf
  rwa [List.reverse_reverse] at hpre

lemma head?_of_leading {l₁ l₂ : Str} (h : l₁ <+: l₂) {c : Char}
    (hc : l₁.head? = some c) : l₂.head? = some c := by
  obtain ⟨t, rfl⟩ := h
  rw [List.head?_append, hc]
  rfl

lemma normalize_head_not_ws (x : Str) :
    ∀ c, (normalize_domain x).head? = some c → pyWs c = false := by
  intro c hc
  unfold normalize_domain at hc
  split at hc
  · simp at hc
  · have h1 := head?_of_leading (revDropRev_leading (fun c => c = '/') _) hc
    have h2 := head?_of_leading (revDropRev_leading pyWs _) h1
    exact head?_dropWhile pyWs _ c h2

lemma stripWs_eq_self (y : Str)
    (hhead : ∀ c, y.head? = some c → pyWs c = false)
    (htail : ∀ c, y.getLast? = some c → pyWs c = false) :
    stripWs y = y := by
  unfold stripWs
  rw [dropWhile_eq_self_of_head pyWs y hhead,
    dropWhile_eq_self_of_head pyWs y.reverse
      (fun c hc => htail c (by rwa [List.head?_reverse] at hc)),
    List.reverse_reverse]

lemma normalize_fixed (y : Str) (hnil : y ≠ []) (hNA : y ≠ "N/A".toList)
    (hsub : hasSub "://".toList y = false)
    (hwww : hasSub "www.".toList y = false)
    (hlow : ∀ c ∈ y, c.toLower = c)
    (hhead : ∀ c, y.head? = some c → pyWs c = false)
    (htail : ∀ c, y.getLast? = some c → pyWs c = false)
    (hslash : rstripSlash y = y) :
    normalize_domain y = y := by
  have he : y.isEmpty = false := by
    cases y
    · exact absurd rfl hnil
    · rfl
  have hne : (y == "N/A".toList) = false := beq_eq_false_iff_ne.mpr hNA
  unfold normalize_domain
  rw [he, hne, hsub]
  simp only [Bool.or_self, Bool.false_eq_true, if_false]
  rw [pyLower_eq_self y hlow,
    removeAll_no_occurrence _ _ hwww,
    stripWs_eq_self y hhead htail, hslash]

/-- C2, counterexample: normalization is not idempotent; three concrete
failures, one per residual shape — "a /" (rstrip("/") exposes a trailing
blank that a second strip removes), "wwwww.w." (removing "www." rebuilds
a "www." that the second pass removes), and "a:www.//b" (removing
"www." builds a "://", so the second pass takes the urlparse branch and
extracts the netloc "b" from "a://b"). -/
theorem normalize_idem_cex :
    normalize_domain (normalize_domain "a /".toList)
      ≠ normalize_domain "a /".toList ∧
    normalize_domain (normalize_domain "wwwww.w.".toList)
      ≠ normalize_domain "wwwww.w.".toList ∧
    normalize_domain (normalize_domain "a:www.//b".toList)
      ≠ normalize_domain "a:www.//b".toList := by decide

/-- C2, amended: normalization is idempotent at every input x whose first
result normalize(x) contains no "www." substring, no "://" substring, and
does not end in a whitespace character; the three counterexample shapes
are exactly the excluded ones. -/
theorem normalize_idem_amended (x : Str)
    (hw : hasSub "www.".toList (normalize_domain x) = false)
    (hs : hasSub "://".toList (normalize_domain x) = false)
    (ht : ∀ c, (normalize_domain x).getLast? = some c → pyWs c = false) :
    normalize_domain (normalize_domain x) = normalize_domain x := by
  by_cases hnil : normalize_domain x = []
  · rw [hnil]
    rfl
  · have hNA : normalize_domain x ≠ "N/A".toList := fun hcon =>
      absurd (normalize_chars_lower x 'N' (by rw [hcon]; decide)) (by decide)
    exact normalize_fixed (normalize_domain x) hnil hNA hs hw
      (normalize_chars_lower x) (normalize_head_not_ws x) ht
      (normalize_rstrip_fixed x)

/-- C2, amended, witness: idempotence applied at the spec's own URL
example, whose normalization "example.com" satisfies the three
conditions. -/
theorem normalize_idem_amended_witness :
    normalize_domain (normalize_domain "https://www.Example.com/".toList)
      = normalize_domain "https://www.Example.com/".toList :=
  normalize_idem_amended "https://www.Example.com/".toList (by decide) (by decide)
    (fun c hc => by
      rw [show (normalize_domain "https://www.Example.com/".toList).getLast?
          = some 'm' from by decide] at hc
      injection hc with hc2
      subst hc2
      decide)
